import Mathlib

/-!
Shallow embedding of the indicator/signal pipeline of src/app.py
(functions calculate_price_patterns and find_possible_trades).

Prices are modelled as rationals.  A pandas NaN cell is modelled by
Option.none; pandas drops a row in dropna() exactly when one of its
cells is none.  The one place where the source's float semantics go
beyond rational arithmetic is the oscillator at avg_loss = 0: there
the float code produces rs = +inf when avg_gain > 0 (so the
oscillator cell is 100 - 100/(1+inf) = 100) and rs = NaN when
avg_gain = 0 (so the cell is NaN and the row is dropped); both are
written out explicitly below.  Likewise, when risk_amount = 0 the
source divides to an infinite float and the int() conversion raises
OverflowError, aborting the call; this fault is modelled by
Except.error.
-/

namespace TradeApp

/-- One OHLCV bar (one row of the fetched DataFrame).  The field opn
models the column named open in the source, which is a keyword here. -/
structure Bar where
  opn : ℚ
  high : ℚ
  low : ℚ
  close : ℚ
  volume : ℚ
  deriving DecidableEq, Repr, Inhabited

/-- The close column: close price of the bar at position i. -/
def close (s : List Bar) (i : ℕ) : ℚ := (s[i]?.map Bar.close).getD 0

/-- The high column. -/
def high (s : List Bar) (i : ℕ) : ℚ := (s[i]?.map Bar.high).getD 0

/-- The low column. -/
def low (s : List Bar) (i : ℕ) : ℚ := (s[i]?.map Bar.low).getD 0

/-- pandas ewm(span, adjust=False).mean() recurrence: the value at 0 is
the first observation and each later value is a * x + (1 - a) * prev,
with smoothing factor a = 2/(span+1). -/
def ema (a : ℚ) (c : ℕ → ℚ) : ℕ → ℚ
  | 0 => c 0
  | i + 1 => a * c (i + 1) + (1 - a) * ema a c i

/-- Column Short Average Price (20): rolling(window=20).mean() of close;
NaN (none) while fewer than 20 observations are available. -/
def sma20 (s : List Bar) (i : ℕ) : Option ℚ :=
  if 19 ≤ i then some ((∑ k ∈ Finset.range 20, close s (i - k)) / 20) else none

/-- Column Longer Average Price (50): ewm(span=50, adjust=False).mean()
of close; defined from row 0 on. -/
def ema50 (s : List Bar) (i : ℕ) : ℚ := ema (2 / 51) (close s) i

/-- One gain observation: delta.where(delta > 0, 0) at position i.
The NaN produced by diff() at position 0 compares false against 0 and
is therefore replaced by 0, exactly as in pandas. -/
def gainv (s : List Bar) (i : ℕ) : ℚ :=
  if i = 0 then 0
  else if 0 < close s i - close s (i - 1) then close s i - close s (i - 1) else 0

/-- One loss observation: -delta.where(delta < 0, 0) at position i. -/
def lossv (s : List Bar) (i : ℕ) : ℚ :=
  if i = 0 then 0
  else if close s i - close s (i - 1) < 0 then -(close s i - close s (i - 1)) else 0

/-- Trailing average gain: gain.rolling(window=14).mean(). -/
def avgGain (s : List Bar) (i : ℕ) : Option ℚ :=
  if 13 ≤ i then some ((∑ k ∈ Finset.range 14, gainv s (i - k)) / 14) else none

/-- Trailing average loss: loss.rolling(window=14).mean(). -/
def avgLoss (s : List Bar) (i : ℕ) : Option ℚ :=
  if 13 ≤ i then some ((∑ k ∈ Finset.range 14, lossv s (i - k)) / 14) else none

/-- Column Overbought/Oversold Score (0-100): 100 - 100/(1 + rs) with
rs = avg_gain/avg_loss.  With float semantics, avg_loss = 0 gives
rs = +inf when avg_gain > 0 (cell value 100) and rs = NaN when
avg_gain = 0 (cell NaN, hence none). -/
def osc (s : List Bar) (i : ℕ) : Option ℚ :=
  match avgGain s i, avgLoss s i with
  | some g, some l =>
      if l = 0 then (if g = 0 then none else some 100)
      else some (100 - 100 / (1 + g / l))
  | _, _ => none

/-- Column Momentum Line: ewm span-12 mean minus ewm span-26 mean of close. -/
def mline (s : List Bar) (i : ℕ) : ℚ :=
  ema (2 / 13) (close s) i - ema (2 / 27) (close s) i

/-- Column Momentum Signal Line: ewm span-9 mean of the momentum line. -/
def msig (s : List Bar) (i : ℕ) : ℚ := ema (2 / 10) (mline s) i

/-- True range at position i: row-wise max of high-low,
|high - prev close|, |low - prev close|.  At position 0 the two
shifted terms are NaN and DataFrame.max skips them, leaving high-low. -/
def tr (s : List Bar) (i : ℕ) : ℚ :=
  if i = 0 then high s 0 - low s 0
  else max (high s i - low s i)
    (max |high s i - close s (i - 1)| |low s i - close s (i - 1)|)

/-- Column Typical Daily Price Swing: tr.rolling(window=14).mean(). -/
def atr (s : List Bar) (i : ℕ) : Option ℚ :=
  if 13 ≤ i then some ((∑ k ∈ Finset.range 14, tr s (i - k)) / 14) else none

/-- One row of the indicator-augmented DataFrame.  idx is the position
of the underlying bar in the input series (standing in for the
Date/Time index label). -/
structure Row where
  idx : ℕ
  bar : Bar
  sma20 : ℚ
  ema50 : ℚ
  osc : ℚ
  mline : ℚ
  msig : ℚ
  swing : ℚ
  deriving DecidableEq, Repr, Inhabited

/-- dropna(): a row survives exactly when every cell is non-NaN.  The
ewm-based columns are total, so only the three plain rolling windows
can produce NaN, plus the oscillator's 0/0 cell. -/
def retained (s : List Bar) (i : ℕ) : Bool :=
  (sma20 s i).isSome && (osc s i).isSome && (atr s i).isSome

/-- Assemble the indicator row at position i (only used at retained
positions, where every getD default is hit on a some). -/
def mkRow (s : List Bar) (i : ℕ) : Row :=
  { idx := i
    bar := s[i]?.getD default
    sma20 := (sma20 s i).getD 0
    ema50 := ema50 s i
    osc := (osc s i).getD 0
    mline := mline s i
    msig := msig s i
    swing := (atr s i).getD 0 }

/-- calculate_price_patterns: returns None for an empty input (the
early return), otherwise the dropna()-filtered indicator rows in
original order. -/
def calculate_price_patterns (s : List Bar) : Option (List Row) :=
  match s with
  | [] => none
  | _ :: _ => some (((List.range s.length).filter (retained s)).map (mkRow s))

/-- One suggested trade (one row of the trades DataFrame). -/
structure Trade where
  idx : ℕ
  isBuy : Bool
  entry : ℚ
  stop : ℚ
  target : ℚ
  shares : ℤ
  deriving DecidableEq, Repr, Inhabited

/-- Python int() on a rational: truncation toward zero. -/
def pyInt (x : ℚ) : ℤ := if 0 ≤ x then ⌊x⌋ else -⌊-x⌋

/-- BUY local safety_stop = price - swing * 1.5 (source line 169). -/
def buyStop (cur : Row) : ℚ := cur.bar.close - cur.swing * (3 / 2)

/-- BUY local risk_amount = price - safety_stop (source line 170). -/
def buyRisk (cur : Row) : ℚ := cur.bar.close - buyStop cur

/-- The BUY trade row appended by the source (lines 171-181). -/
def buyTrade (cur : Row) (capital risk_pct : ℚ) : Trade :=
  { idx := cur.idx
    isBuy := true
    entry := cur.bar.close
    stop := buyStop cur
    target := cur.bar.close + buyRisk cur * 2
    shares := max 1 (pyInt (capital * risk_pct / buyRisk cur)) }

/-- SELL local safety_stop = price + swing * 1.5 (source line 188). -/
def sellStop (cur : Row) : ℚ := cur.bar.close + cur.swing * (3 / 2)

/-- SELL local risk_amount = safety_stop - price (source line 189). -/
def sellRisk (cur : Row) : ℚ := sellStop cur - cur.bar.close

/-- The SELL trade row appended by the source (lines 190-200). -/
def sellTrade (cur : Row) (capital risk_pct : ℚ) : Trade :=
  { idx := cur.idx
    isBuy := false
    entry := cur.bar.close
    stop := sellStop cur
    target := cur.bar.close - sellRisk cur * 2
    shares := max 1 (pyInt (capital * risk_pct / sellRisk cur)) }

/-- The body of the signal loop for one row pair (prev = row i-1,
cur = row i of the filtered frame).  Except.error models the
OverflowError raised by int() on the infinite float that the source
produces when risk_amount = 0 (the source has no guard; the division
itself yields inf/NaN and the integer conversion raises). -/
def rowSignal (prev cur : Row) (capital risk_pct : ℚ) : Except Unit (Option Trade) :=
  if cur.sma20 > cur.ema50 ∧ prev.sma20 ≤ prev.ema50 ∧ cur.osc < 70 then
    if buyRisk cur = 0 then Except.error ()
    else Except.ok (some (buyTrade cur capital risk_pct))
  else if (cur.sma20 < cur.ema50 ∧ prev.sma20 ≥ prev.ema50) ∨ cur.osc > 70 then
    if sellRisk cur = 0 then Except.error ()
    else Except.ok (some (sellTrade cur capital risk_pct))
  else Except.ok none

/-- The for-loop of find_possible_trades: scan consecutive row pairs,
collecting the emitted trades in row order; a fault in any row aborts
the whole call, as an uncaught exception does in the source. -/
def signals : Row → List Row → ℚ → ℚ → Except Unit (List Trade)
  | _, [], _, _ => Except.ok []
  | prev, cur :: rest, capital, risk_pct => do
    let t ← rowSignal prev cur capital risk_pct
    let ts ← signals cur rest capital risk_pct
    pure (match t with | some x => x :: ts | none => ts)

/-- find_possible_trades: Except.ok none models the (None, None) early
returns for an empty input or an empty indicator frame; Except.ok
(some (rows, trades)) is the normal (pattern df, trades df) return. -/
def find_possible_trades (s : List Bar) (capital risk_pct : ℚ) :
    Except Unit (Option (List Row × List Trade)) :=
  match s with
  | [] => Except.ok none
  | _ :: _ =>
    match calculate_price_patterns s with
    | none => Except.ok none
    | some [] => Except.ok none
    | some (r0 :: rest) =>
      (signals r0 rest capital risk_pct).map (fun ts => some (r0 :: rest, ts))

/-- A 21-bar series with strictly increasing closes 1..21, used as a
concrete witness input. -/
def demoUp : List Bar :=
  (List.range 21).map (fun j =>
    { opn := (j : ℚ) + 1, high := (j : ℚ) + 2, low := 1, close := (j : ℚ) + 1, volume := 1 })

/-- A 21-bar series with strictly increasing closes but every true
range equal to 0 (high = low = previous close), so the volatility
column is 0 on every retained row. -/
def demoTR0 : List Bar :=
  (List.range 21).map (fun j =>
    { opn := 1
      high := if j = 0 then 1 else (j : ℚ)
      low := if j = 0 then 1 else (j : ℚ)
      close := (j : ℚ) + 1
      volume := 1 })

/-- A 21-bar constant-price series. -/
def demoConst : List Bar :=
  List.replicate 21 { opn := 5, high := 5, low := 5, close := 5, volume := 5 }

/-- A 3-bar series (shorter than the 20-row minimum). -/
def demoShort : List Bar :=
  (List.range 3).map (fun j =>
    { opn := 1, high := 2, low := 1, close := (j : ℚ) + 1, volume := 1 })

/-- A concrete prior indicator row sitting below the long average. -/
def rowPrev : Row :=
  { idx := 0, bar := { opn := 10, high := 11, low := 9, close := 10, volume := 1 }
    sma20 := 1, ema50 := 2, osc := 50, mline := 0, msig := 0, swing := 1 }

/-- A concrete current row realising the BUY trigger against rowPrev. -/
def rowBuy : Row :=
  { idx := 1, bar := { opn := 10, high := 11, low := 9, close := 10, volume := 1 }
    sma20 := 3, ema50 := 2, osc := 50, mline := 0, msig := 0, swing := 1 }

/-- A concrete current row realising the SELL trigger (overbought
branch) against rowPrev, with no BUY trigger. -/
def rowSell : Row :=
  { idx := 1, bar := { opn := 10, high := 11, low := 9, close := 10, volume := 1 }
    sma20 := 1, ema50 := 2, osc := 80, mline := 0, msig := 0, swing := 1 }

/-- A concrete triggering row whose volatility is 0. -/
def rowRisk0 : Row :=
  { idx := 1, bar := { opn := 10, high := 11, low := 9, close := 10, volume := 1 }
    sma20 := 1, ema50 := 2, osc := 80, mline := 0, msig := 0, swing := 0 }

/-- The signal-loop result on the concrete BUY pair. -/
def demoResBuy : Option Trade :=
  ((rowSignal rowPrev rowBuy 10000 (1 / 100)).toOption).getD none

/-- The signal-loop result on the concrete SELL pair. -/
def demoResSell : Option Trade :=
  ((rowSignal rowPrev rowSell 10000 (1 / 100)).toOption).getD none

/-- The concrete BUY trade emitted on the concrete BUY pair. -/
def demoTradeBuy : Trade := demoResBuy.getD default

/-- The head of a nonempty list (with default fallback) is a member. -/
theorem headI_mem {α : Type} [Inhabited α] (l : List α) (h : l ≠ []) : l.headI ∈ l := by
  cases l with
  | nil => exact absurd rfl h
  | cons a t => exact List.mem_cons_self a t

/-- Reading every position of a list back in order reproduces the list. -/
theorem range_map_getD (s : List Bar) :
    (List.range s.length).map (fun i => s[i]?.getD default) = s := by
  apply List.ext_getElem
  · simp
  · intro i h1 h2
    simp [List.getElem?_eq_getElem h2]

/-- Filtering a range by a left-bounded index predicate gives a tail range. -/
theorem filter_le_range :
    ∀ n : ℕ, (List.range n).filter (fun i => decide (19 ≤ i)) = List.range' 19 (n - 19)
  | 0 => rfl
  | n + 1 => by
    rw [List.range_succ, List.filter_append, filter_le_range n]
    by_cases h : 19 ≤ n
    · have h1 : n + 1 - 19 = (n - 19) + 1 := by omega
      have h2 : 19 + (n - 19) = n := by omega
      rw [h1, List.range'_1_concat, h2]
      simp [h]
    · have h1 : n + 1 - 19 = 0 := by omega
      have h2 : n - 19 = 0 := by omega
      simp [h1, h2, h]

/-- Inversion for membership in the output of calculate_price_patterns. -/
theorem mem_calc {s : List Bar} {rows : List Row} {row : Row}
    (hcalc : calculate_price_patterns s = some rows) (hmem : row ∈ rows) :
    ∃ i, i < s.length ∧ retained s i = true ∧ row = mkRow s i := by
  cases s with
  | nil => simp [calculate_price_patterns] at hcalc
  | cons a t =>
    simp only [calculate_price_patterns, Option.some.injEq] at hcalc
    subst hcalc
    obtain ⟨i, hifil, hrow⟩ := List.mem_map.mp hmem
    obtain ⟨hirange, hret⟩ := List.mem_filter.mp hifil
    exact ⟨i, List.mem_range.mp hirange, hret, hrow.symm⟩

/-- Gain observations are nonnegative. -/
theorem gainv_nonneg (s : List Bar) (i : ℕ) : 0 ≤ gainv s i := by
  unfold gainv
  split
  · exact le_refl 0
  · split
    · linarith
    · exact le_refl 0

/-- Loss observations are nonnegative. -/
theorem lossv_nonneg (s : List Bar) (i : ℕ) : 0 ≤ lossv s i := by
  unfold lossv
  split
  · exact le_refl 0
  · split
    · linarith
    · exact le_refl 0

/-- Python truncation agrees with the floor on nonnegative arguments. -/
theorem pyInt_eq_floor {x : ℚ} (h : 0 ≤ x) : pyInt x = ⌊x⌋ := if_pos h

/-- Unfolding of the oscillator cell once both window means are known. -/
theorem osc_eq (s : List Bar) (i : ℕ) (g l : ℚ)
    (hg : avgGain s i = some g) (hl : avgLoss s i = some l) :
    osc s i = if l = 0 then (if g = 0 then none else some 100)
      else some (100 - 100 / (1 + g / l)) := by
  unfold osc
  rw [hg, hl]

/-- The oscillator cell is NaN while the window lacks history. -/
theorem osc_none {s : List Bar} {i : ℕ} (h : ¬13 ≤ i) : osc s i = none := by
  unfold osc avgGain
  rw [if_neg h]

/-- An undersized, nonempty series keeps no indicator row. -/
theorem calc_undersized {a : Bar} {t : List Bar} (h : (a :: t).length < 20) :
    calculate_price_patterns (a :: t) = some [] := by
  simp only [calculate_price_patterns]
  have hfil : (List.range (a :: t).length).filter (retained (a :: t)) = [] := by
    rw [List.filter_eq_nil_iff]
    intro i hi
    have hi19 : ¬19 ≤ i := by
      have := List.mem_range.mp hi
      omega
    simp [retained, sma20, hi19]
  rw [hfil]
  rfl

/-- C4: for every Bar Series of length < 20 (including the empty series),
calculate_price_patterns keeps no indicator row (empty output, with the
empty-input early return modelled by none), and find_possible_trades
returns the (None, None) early result without a fault. -/
theorem undersized_input_c4 (s : List Bar) (capital risk_pct : ℚ) (h : s.length < 20) :
    find_possible_trades s capital risk_pct = Except.ok none ∧
    (calculate_price_patterns s).getD [] = [] := by
  cases s with
  | nil => exact ⟨rfl, rfl⟩
  | cons a t =>
    have h1 : calculate_price_patterns (a :: t) = some [] := calc_undersized h
    constructor
    · simp only [find_possible_trades, h1]
    · rw [h1]
      rfl

/-- C4 witness: the 3-bar demo series produces no rows and no trades. -/
theorem undersized_input_c4_witness :
    find_possible_trades demoShort 10000 (1 / 100) = Except.ok none ∧
    (calculate_price_patterns demoShort).getD [] = [] :=
  undersized_input_c4 demoShort 10000 (1 / 100) (by decide)

/-- C7 (amended): the source does not guard the position-sizing division;
on any row pair whose BUY or SELL trigger holds while the volatility is 0,
the division by risk_amount = 0 produces an infinite float whose int()
conversion raises, aborting the call (modelled by Except.error). -/
theorem risk_zero_aborts_c7 (prev cur : Row) (capital risk_pct : ℚ)
    (hswing : cur.swing = 0)
    (htrig : (cur.sma20 > cur.ema50 ∧ prev.sma20 ≤ prev.ema50 ∧ cur.osc < 70) ∨
      ((cur.sma20 < cur.ema50 ∧ prev.sma20 ≥ prev.ema50) ∨ cur.osc > 70)) :
    rowSignal prev cur capital risk_pct = Except.error () := by
  have hb0 : buyRisk cur = 0 := by simp [buyRisk, buyStop, hswing]
  have hs0 : sellRisk cur = 0 := by simp [sellRisk, sellStop, hswing]
  by_cases hb : cur.sma20 > cur.ema50 ∧ prev.sma20 ≤ prev.ema50 ∧ cur.osc < 70
  · simp [rowSignal, hb, hb0]
  · rcases htrig with h | h
    · exact absurd h hb
    · simp [rowSignal, hb, h, hs0]

/-- C7 witness: a concrete triggering row with volatility 0 aborts. -/
theorem risk_zero_aborts_c7_witness :
    rowSignal rowPrev rowRisk0 10000 (1 / 100) = Except.error () :=
  risk_zero_aborts_c7 rowPrev rowRisk0 10000 (1 / 100) rfl
    (Or.inr (Or.inr (by norm_num [rowRisk0])))

set_option maxRecDepth 20000 in
/-- C7 counterexample to the claim as stated: on a 21-bar series whose
true ranges are all 0 while the oscillator is saturated, the triggering
row is neither skipped nor failed individually; the whole call faults on
the unguarded division. -/
theorem risk_zero_counterexample_c7 :
    find_possible_trades demoTR0 10000 (1 / 100) = Except.error () := by
  with_unfolding_all rfl

/-- C8: the pipeline is deterministic; equal inputs give equal outputs
for both components. -/
theorem deterministic_c8 (s1 s2 : List Bar) (c1 c2 r1 r2 : ℚ)
    (hs : s1 = s2) (hc : c1 = c2) (hr : r1 = r2) :
    calculate_price_patterns s1 = calculate_price_patterns s2 ∧
    find_possible_trades s1 c1 r1 = find_possible_trades s2 c2 r2 := by
  subst hs; subst hc; subst hr
  exact ⟨rfl, rfl⟩

/-- C8 witness: determinism at a concrete input. -/
theorem deterministic_c8_witness :
    calculate_price_patterns demoShort = calculate_price_patterns demoShort ∧
    find_possible_trades demoShort 10000 (1 / 100) = find_possible_trades demoShort 10000 (1 / 100) :=
  deterministic_c8 demoShort demoShort 10000 10000 (1 / 100) (1 / 100) rfl rfl rfl

/-- C1: on any indicator-row series, at any row index i >= 1 whose
evaluation completes, a BUY signal is emitted exactly when
SMA20[i] > EMA50[i], SMA20[i-1] <= EMA50[i-1] and oscillator[i] < 70;
in particular no BUY is emitted when the oscillator is exactly 70. -/
theorem buy_trigger_iff_c1 (rs : List Row) (i : ℕ) (hi : 1 ≤ i) (prev cur : Row)
    (hprev : rs[i - 1]? = some prev) (hcur : rs[i]? = some cur)
    (capital risk_pct : ℚ) (res : Option Trade)
    (hok : rowSignal prev cur capital risk_pct = Except.ok res) :
    (res.map Trade.isBuy = some true ↔
      (cur.sma20 > cur.ema50 ∧ prev.sma20 ≤ prev.ema50 ∧ cur.osc < 70)) ∧
    (cur.osc = 70 → res.map Trade.isBuy ≠ some true) := by
  simp only [rowSignal] at hok
  by_cases hb : cur.sma20 > cur.ema50 ∧ prev.sma20 ≤ prev.ema50 ∧ cur.osc < 70
  · rw [if_pos hb] at hok
    by_cases hz : buyRisk cur = 0
    · rw [if_pos hz] at hok
      exact absurd hok (by simp)
    · rw [if_neg hz] at hok
      injection hok with h
      subst h
      refine ⟨by simp [buyTrade, hb], ?_⟩
      intro h70
      exact absurd (h70 ▸ hb.2.2) (lt_irrefl (70 : ℚ))
  · rw [if_neg hb] at hok
    by_cases hsell : (cur.sma20 < cur.ema50 ∧ prev.sma20 ≥ prev.ema50) ∨ cur.osc > 70
    · rw [if_pos hsell] at hok
      by_cases hz : sellRisk cur = 0
      · rw [if_pos hz] at hok
        exact absurd hok (by simp)
      · rw [if_neg hz] at hok
        injection hok with h
        subst h
        exact ⟨by simp [sellTrade, hb], by intro _; simp [sellTrade]⟩
    · rw [if_neg hsell] at hok
      injection hok with h
      subst h
      exact ⟨by simp [hb], by intro _; simp⟩

/-- C1 witness: a concrete upward cross with oscillator 50 emits a BUY. -/
theorem buy_trigger_iff_c1_witness :
    (demoResBuy.map Trade.isBuy = some true ↔
      (rowBuy.sma20 > rowBuy.ema50 ∧ rowPrev.sma20 ≤ rowPrev.ema50 ∧ rowBuy.osc < 70)) ∧
    (rowBuy.osc = 70 → demoResBuy.map Trade.isBuy ≠ some true) :=
  buy_trigger_iff_c1 [rowPrev, rowBuy] 1 (by decide) rowPrev rowBuy rfl rfl
    10000 (1 / 100) demoResBuy (by with_unfolding_all rfl)

/-- C2: on any indicator-row series, at any row index i >= 1 whose
evaluation completes, a SELL signal is emitted exactly when the BUY
condition fails and either SMA20 crosses downward or the oscillator
exceeds 70; a row emits at most one signal and BUY takes precedence. -/
theorem sell_trigger_iff_c2 (rs : List Row) (i : ℕ) (hi : 1 ≤ i) (prev cur : Row)
    (hprev : rs[i - 1]? = some prev) (hcur : rs[i]? = some cur)
    (capital risk_pct : ℚ) (res : Option Trade)
    (hok : rowSignal prev cur capital risk_pct = Except.ok res) :
    (res.map Trade.isBuy = some false ↔
      (¬(cur.sma20 > cur.ema50 ∧ prev.sma20 ≤ prev.ema50 ∧ cur.osc < 70) ∧
        ((cur.sma20 < cur.ema50 ∧ prev.sma20 ≥ prev.ema50) ∨ cur.osc > 70))) ∧
    ((cur.sma20 > cur.ema50 ∧ prev.sma20 ≤ prev.ema50 ∧ cur.osc < 70) →
      res.map Trade.isBuy ≠ some false) := by
  simp only [rowSignal] at hok
  by_cases hb : cur.sma20 > cur.ema50 ∧ prev.sma20 ≤ prev.ema50 ∧ cur.osc < 70
  · rw [if_pos hb] at hok
    by_cases hz : buyRisk cur = 0
    · rw [if_pos hz] at hok
      exact absurd hok (by simp)
    · rw [if_neg hz] at hok
      injection hok with h
      subst h
      exact ⟨by simp [buyTrade, hb], by intro _; simp [buyTrade]⟩
  · rw [if_neg hb] at hok
    by_cases hsell : (cur.sma20 < cur.ema50 ∧ prev.sma20 ≥ prev.ema50) ∨ cur.osc > 70
    · rw [if_pos hsell] at hok
      by_cases hz : sellRisk cur = 0
      · rw [if_pos hz] at hok
        exact absurd hok (by simp)
      · rw [if_neg hz] at hok
        injection hok with h
        subst h
        exact ⟨by simp [sellTrade, hb, hsell], fun h => absurd h hb⟩
    · rw [if_neg hsell] at hok
      injection hok with h
      subst h
      exact ⟨by simp [hsell], fun h => absurd h hb⟩

/-- C2 witness: a concrete overbought row emits a SELL. -/
theorem sell_trigger_iff_c2_witness :
    (demoResSell.map Trade.isBuy = some false ↔
      (¬(rowSell.sma20 > rowSell.ema50 ∧ rowPrev.sma20 ≤ rowPrev.ema50 ∧ rowSell.osc < 70) ∧
        ((rowSell.sma20 < rowSell.ema50 ∧ rowPrev.sma20 ≥ rowPrev.ema50) ∨ rowSell.osc > 70))) ∧
    ((rowSell.sma20 > rowSell.ema50 ∧ rowPrev.sma20 ≤ rowPrev.ema50 ∧ rowSell.osc < 70) →
      demoResSell.map Trade.isBuy ≠ some false) :=
  sell_trigger_iff_c2 [rowPrev, rowSell] 1 (by decide) rowPrev rowSell rfl rfl
    10000 (1 / 100) demoResSell (by with_unfolding_all rfl)

/-- C3: every emitted signal prices its stop and target from the row's
close and volatility exactly as specified, and its quantity is
max(1, floor(capital * risk_fraction / risk_amount)), an integer >= 1. -/
theorem sizing_formulas_c3 (prev cur : Row) (capital risk_pct : ℚ)
    (hcap : 0 < capital) (hr0 : 0 < risk_pct) (hr1 : risk_pct ≤ 1)
    (hrisk : 0 < cur.swing * (3 / 2)) (t : Trade)
    (hok : rowSignal prev cur capital risk_pct = Except.ok (some t)) :
    t.entry = cur.bar.close ∧
    (t.isBuy = true →
      t.stop = cur.bar.close - cur.swing * (3 / 2) ∧
      t.target = cur.bar.close + 2 * (cur.bar.close - t.stop)) ∧
    (t.isBuy = false →
      t.stop = cur.bar.close + cur.swing * (3 / 2) ∧
      t.target = cur.bar.close - 2 * (t.stop - cur.bar.close)) ∧
    t.shares = max 1 ⌊capital * risk_pct / (cur.swing * (3 / 2))⌋ ∧
    1 ≤ t.shares := by
  have hbr : buyRisk cur = cur.swing * (3 / 2) := sub_sub_cancel _ _
  have hsr : sellRisk cur = cur.swing * (3 / 2) := add_sub_cancel_left _ _
  have hq : 0 ≤ capital * risk_pct / (cur.swing * (3 / 2)) :=
    div_nonneg (mul_nonneg hcap.le hr0.le) hrisk.le
  simp only [rowSignal] at hok
  by_cases hb : cur.sma20 > cur.ema50 ∧ prev.sma20 ≤ prev.ema50 ∧ cur.osc < 70
  · rw [if_pos hb, if_neg (hbr ▸ ne_of_gt hrisk)] at hok
    injection hok with h
    injection h with h
    subst h
    refine ⟨rfl, fun _ => ⟨rfl, ?_⟩, fun hfalse => by simp [buyTrade] at hfalse, ?_, ?_⟩
    · show cur.bar.close + buyRisk cur * 2 = cur.bar.close + 2 * (cur.bar.close - buyStop cur)
      rw [hbr]
      unfold buyStop
      ring
    · show max 1 (pyInt (capital * risk_pct / buyRisk cur)) = _
      rw [hbr, pyInt_eq_floor hq]
    · exact le_max_left 1 _
  · rw [if_neg hb] at hok
    by_cases hsell : (cur.sma20 < cur.ema50 ∧ prev.sma20 ≥ prev.ema50) ∨ cur.osc > 70
    · rw [if_pos hsell, if_neg (hsr ▸ ne_of_gt hrisk)] at hok
      injection hok with h
      injection h with h
      subst h
      refine ⟨rfl, fun htrue => by simp [sellTrade] at htrue, fun _ => ⟨rfl, ?_⟩, ?_, ?_⟩
      · show cur.bar.close - sellRisk cur * 2 = cur.bar.close - 2 * (sellStop cur - cur.bar.close)
        rw [hsr]
        unfold sellStop
        ring
      · show max 1 (pyInt (capital * risk_pct / sellRisk cur)) = _
        rw [hsr, pyInt_eq_floor hq]
      · exact le_max_left 1 _
    · rw [if_neg hsell] at hok
      exact absurd hok (by simp)

/-- C3 witness: the concrete BUY trade has the specified stop, target
and quantity. -/
theorem sizing_formulas_c3_witness :
    demoTradeBuy.entry = rowBuy.bar.close ∧
    (demoTradeBuy.isBuy = true →
      demoTradeBuy.stop = rowBuy.bar.close - rowBuy.swing * (3 / 2) ∧
      demoTradeBuy.target = rowBuy.bar.close + 2 * (rowBuy.bar.close - demoTradeBuy.stop)) ∧
    (demoTradeBuy.isBuy = false →
      demoTradeBuy.stop = rowBuy.bar.close + rowBuy.swing * (3 / 2) ∧
      demoTradeBuy.target = rowBuy.bar.close - 2 * (demoTradeBuy.stop - rowBuy.bar.close)) ∧
    demoTradeBuy.shares = max 1 ⌊10000 * (1 / 100) / (rowBuy.swing * (3 / 2))⌋ ∧
    1 ≤ demoTradeBuy.shares :=
  sizing_formulas_c3 rowPrev rowBuy 10000 (1 / 100) (by norm_num) (by norm_num)
    (by norm_num) (by norm_num [rowBuy]) demoTradeBuy (by with_unfolding_all rfl)

/-- An ewm recurrence over a constant signal stays at that constant. -/
theorem ema_const (a : ℚ) (c : ℕ → ℚ) (p : ℚ) :
    ∀ i, (∀ j, j ≤ i → c j = p) → ema a c i = p
  | 0, h => h 0 (le_refl 0)
  | i + 1, h => by
    rw [ema, ema_const a c p i (fun j hj => h j (le_trans hj (Nat.le_succ i))),
      h (i + 1) (le_refl (i + 1))]
    ring

/-- Every in-range close of a constant-close series is that constant. -/
theorem close_const {s : List Bar} {p : ℚ} (hconst : ∀ b ∈ s, b.close = p) :
    ∀ j, j < s.length → close s j = p := by
  intro j hj
  rw [close, List.getElem?_eq_getElem hj]
  exact hconst _ (List.getElem_mem hj)

/-- C5: on a constant-price series the oscillator cell is NaN (0/0) on
every row, so no row is undefined-free there, and the momentum line is
0 everywhere, in particular on every retained output row. -/
theorem constant_series_c5 (s : List Bar) (p : ℚ) (hconst : ∀ b ∈ s, b.close = p) :
    (∀ i, i < s.length → osc s i = none) ∧
    (∀ i, i < s.length → mline s i = 0) ∧
    (∀ rows, calculate_price_patterns s = some rows → ∀ row ∈ rows, row.mline = 0) := by
  have hcl := close_const hconst
  have hml : ∀ i, i < s.length → mline s i = 0 := by
    intro i hi
    have h1 : ema (2 / 13) (close s) i = p :=
      ema_const _ _ _ i (fun j hj => hcl j (lt_of_le_of_lt hj hi))
    have h2 : ema (2 / 27) (close s) i = p :=
      ema_const _ _ _ i (fun j hj => hcl j (lt_of_le_of_lt hj hi))
    rw [mline, h1, h2, sub_self]
  refine ⟨?_, hml, ?_⟩
  · intro i hi
    by_cases h13 : 13 ≤ i
    · have hg : avgGain s i = some 0 := by
        rw [avgGain, if_pos h13]
        congr 1
        rw [Finset.sum_eq_zero, zero_div]
        intro k hk
        rcases Nat.eq_zero_or_pos (i - k) with h0 | hpos
        · simp [gainv, h0]
        · have hik : i - k < s.length := lt_of_le_of_lt (Nat.sub_le i k) hi
          have hik1 : i - k - 1 < s.length := lt_of_le_of_lt (Nat.sub_le _ 1) hik
          simp [gainv, Nat.pos_iff_ne_zero.mp hpos, hcl _ hik, hcl _ hik1]
      have hl : avgLoss s i = some 0 := by
        rw [avgLoss, if_pos h13]
        congr 1
        rw [Finset.sum_eq_zero, zero_div]
        intro k hk
        rcases Nat.eq_zero_or_pos (i - k) with h0 | hpos
        · simp [lossv, h0]
        · have hik : i - k < s.length := lt_of_le_of_lt (Nat.sub_le i k) hi
          have hik1 : i - k - 1 < s.length := lt_of_le_of_lt (Nat.sub_le _ 1) hik
          simp [lossv, Nat.pos_iff_ne_zero.mp hpos, hcl _ hik, hcl _ hik1]
      rw [osc_eq s i 0 0 hg hl]
      simp
    · exact osc_none h13
  · intro rows hcalc row hmem
    obtain ⟨i, hi, _, rfl⟩ := mem_calc hcalc hmem
    exact hml i hi

/-- C5 witness: on the constant demo series, the oscillator cell at
row 20 is NaN and the momentum line there is 0. -/
theorem constant_series_c5_witness :
    osc demoConst 20 = none ∧ mline demoConst 20 = 0 := by
  have h := constant_series_c5 demoConst 5
    (fun b hb => by rw [List.eq_of_mem_replicate hb])
  exact ⟨h.1 20 (by decide), h.2.1 20 (by decide)⟩

/-- C6: on every retained output row whose trailing-14 average loss is
0, the oscillator saturates at exactly 100 (a retained row with zero
average loss must have a positive average gain, so rs is infinite). -/
theorem osc_saturation_c6 (s : List Bar) (rows : List Row)
    (hcalc : calculate_price_patterns s = some rows) (row : Row)
    (hmem : row ∈ rows) (hloss : avgLoss s row.idx = some 0) :
    row.osc = 100 := by
  obtain ⟨i, hi, hret, rfl⟩ := mem_calc hcalc hmem
  have hidx : (mkRow s i).idx = i := rfl
  rw [hidx] at hloss
  have hosc : (osc s i).isSome = true := by
    have h := hret
    simp only [retained, Bool.and_eq_true] at h
    exact h.1.2
  have h13 : 13 ≤ i := by
    by_contra h
    rw [avgLoss, if_neg h] at hloss
    exact Option.noConfusion hloss
  have hg : avgGain s i = some ((∑ k ∈ Finset.range 14, gainv s (i - k)) / 14) := by
    rw [avgGain, if_pos h13]
  have hshow : (mkRow s i).osc = (osc s i).getD 0 := rfl
  rw [osc_eq s i ((∑ k ∈ Finset.range 14, gainv s (i - k)) / 14) 0 hg hloss] at hosc
  rw [hshow, osc_eq s i ((∑ k ∈ Finset.range 14, gainv s (i - k)) / 14) 0 hg hloss]
  by_cases hgz : (∑ k ∈ Finset.range 14, gainv s (i - k)) / 14 = 0
  · simp [hgz] at hosc
  · simp [hgz]

set_option maxRecDepth 20000 in
/-- C6 witness: on the increasing demo series, the first retained row
has zero average loss, and its oscillator is exactly 100. -/
theorem osc_saturation_c6_witness :
    ((calculate_price_patterns demoUp).getD []).headI.osc = 100 := by
  have hne : (calculate_price_patterns demoUp).getD [] ≠ [] := by
    with_unfolding_all decide
  exact osc_saturation_c6 demoUp ((calculate_price_patterns demoUp).getD [])
    (by with_unfolding_all rfl) (((calculate_price_patterns demoUp).getD []).headI)
    (headI_mem _ hne) (by with_unfolding_all rfl)

/-- C9: calculate_price_patterns is a pure transformation; its output
rows are a subsequence of the input bars in original order, and each
output row carries the unchanged bar (all OHLCV fields) found at its
index in the input series. -/
theorem pure_transformation_c9 (s : List Bar) (rows : List Row)
    (hcalc : calculate_price_patterns s = some rows) :
    (rows.map Row.bar).Sublist s ∧ ∀ row ∈ rows, s[row.idx]? = some row.bar := by
  constructor
  · cases s with
    | nil => simp [calculate_price_patterns] at hcalc
    | cons a t =>
      simp only [calculate_price_patterns, Option.some.injEq] at hcalc
      subst hcalc
      rw [List.map_map]
      have hfun : (Row.bar ∘ mkRow (a :: t)) =
          fun i => (a :: t)[i]?.getD default := rfl
      rw [hfun]
      have hsub := (List.filter_sublist
        (l := List.range (a :: t).length) (p := retained (a :: t))).map
        (fun i => (a :: t)[i]?.getD default)
      rw [range_map_getD (a :: t)] at hsub
      exact hsub
  · intro row hmem
    obtain ⟨i, hi, _, rfl⟩ := mem_calc hcalc hmem
    have hidx : (mkRow s i).idx = i := rfl
    have hbar : (mkRow s i).bar = s[i]?.getD default := rfl
    rw [hidx, hbar, List.getElem?_eq_getElem hi]
    rfl

set_option maxRecDepth 20000 in
/-- C9 witness: on the increasing demo series the output bars form a
subsequence of the input, and the first output row carries the input
bar at its index. -/
theorem pure_transformation_c9_witness :
    ((((calculate_price_patterns demoUp).getD []).map Row.bar).Sublist demoUp) ∧
    demoUp[(((calculate_price_patterns demoUp).getD []).headI).idx]? =
      some (((calculate_price_patterns demoUp).getD []).headI).bar := by
  have h := pure_transformation_c9 demoUp ((calculate_price_patterns demoUp).getD [])
    (by with_unfolding_all rfl)
  exact ⟨h.1, h.2 _ (headI_mem _ (by with_unfolding_all decide))⟩

/-- A retained-window oscillator cell is defined as soon as one of the
trailing 14 deltas is nonzero. -/
theorem osc_isSome_of_delta (s : List Bar) (i : ℕ) (h14 : 14 ≤ i)
    (hk : ∃ k, k < 14 ∧ close s (i - k) ≠ close s (i - k - 1)) :
    (osc s i).isSome = true := by
  have h13 : 13 ≤ i := by omega
  obtain ⟨k, hk14, hne⟩ := hk
  have hg : avgGain s i = some ((∑ j ∈ Finset.range 14, gainv s (i - j)) / 14) := by
    rw [avgGain, if_pos h13]
  have hl : avgLoss s i = some ((∑ j ∈ Finset.range 14, lossv s (i - j)) / 14) := by
    rw [avgLoss, if_pos h13]
  rw [osc_eq s i ((∑ j ∈ Finset.range 14, gainv s (i - j)) / 14)
    ((∑ j ∈ Finset.range 14, lossv s (i - j)) / 14) hg hl]
  by_cases hL : (∑ j ∈ Finset.range 14, lossv s (i - j)) / 14 = 0
  · by_cases hG : (∑ j ∈ Finset.range 14, gainv s (i - j)) / 14 = 0
    · exfalso
      have hGsum : ∑ j ∈ Finset.range 14, gainv s (i - j) = 0 := by
        rcases div_eq_zero_iff.mp hG with h | h
        · exact h
        · norm_num at h
      have hLsum : ∑ j ∈ Finset.range 14, lossv s (i - j) = 0 := by
        rcases div_eq_zero_iff.mp hL with h | h
        · exact h
        · norm_num at h
      have hgz : gainv s (i - k) = 0 :=
        (Finset.sum_eq_zero_iff_of_nonneg (fun j _ => gainv_nonneg s (i - j))).mp
          hGsum k (Finset.mem_range.mpr hk14)
      have hlz : lossv s (i - k) = 0 :=
        (Finset.sum_eq_zero_iff_of_nonneg (fun j _ => lossv_nonneg s (i - j))).mp
          hLsum k (Finset.mem_range.mpr hk14)
      have hik : i - k ≠ 0 := by omega
      rw [gainv, if_neg hik] at hgz
      rw [lossv, if_neg hik] at hlz
      rcases lt_trichotomy (close s (i - k) - close s (i - k - 1)) 0 with h | h | h
      · rw [if_pos h, neg_eq_zero] at hlz
        exact absurd hlz (ne_of_lt h)
      · exact hne (sub_eq_zero.mp h)
      · rw [if_pos h] at hgz
        exact absurd hgz (ne_of_gt h)
    · simp [hL, hG]
  · simp [hL]

/-- C10: when the series has at least 20 bars and every window of 14
consecutive deltas contains a nonzero delta, exactly the first 19 rows
are dropped and the remaining length-19 rows are all retained. -/
theorem drop_count_c10 (s : List Bar) (h20 : 20 ≤ s.length)
    (hnz : ∀ i, i < s.length → 14 ≤ i →
      ∃ k, k < 14 ∧ close s (i - k) ≠ close s (i - k - 1)) :
    calculate_price_patterns s = some ((List.range' 19 (s.length - 19)).map (mkRow s)) ∧
    ((calculate_price_patterns s).getD []).length = s.length - 19 := by
  have hfil : (List.range s.length).filter (retained s) =
      List.range' 19 (s.length - 19) := by
    rw [List.filter_congr (fun i hi => ?_), filter_le_range s.length]
    have hin := List.mem_range.mp hi
    by_cases h19 : 19 ≤ i
    · have hsma : (sma20 s i).isSome = true := by rw [sma20, if_pos h19]; rfl
      have hatr : (atr s i).isSome = true := by
        rw [atr, if_pos (by omega : 13 ≤ i)]; rfl
      have hosc := osc_isSome_of_delta s i (by omega) (hnz i hin (by omega))
      simp [retained, hsma, hatr, hosc, h19]
    · have hsma : (sma20 s i).isSome = false := by rw [sma20, if_neg h19]; rfl
      simp [retained, hsma, h19]
  have hmain : calculate_price_patterns s =
      some ((List.range' 19 (s.length - 19)).map (mkRow s)) := by
    cases s with
    | nil => simp at h20
    | cons a t =>
      simp only [calculate_price_patterns, Option.some.injEq]
      rw [hfil]
  refine ⟨hmain, ?_⟩
  rw [hmain]
  simp

set_option maxRecDepth 20000 in
/-- C10 witness: the 21-bar increasing demo series keeps exactly rows
19 and 20. -/
theorem drop_count_c10_witness :
    calculate_price_patterns demoUp =
      some ((List.range' 19 (demoUp.length - 19)).map (mkRow demoUp)) ∧
    ((calculate_price_patterns demoUp).getD []).length = demoUp.length - 19 :=
  drop_count_c10 demoUp (by decide) (by with_unfolding_all decide)

end TradeApp
